import Mathlib

set_option maxRecDepth 200000

/-!
Verification of the webhook signature component of
`docs/api/sample-clients/python-client.py`.

The development shallowly embeds the Python code:

* Python `str` values are lists of Unicode code points (`List Nat`);
* Python `bytes` values are lists of byte values (`List Nat`, entries `< 256`);
* `hashlib.sha256`, `hmac.new(...).hexdigest()` and `hmac.compare_digest`
  are embedded from their CPython reference semantics, since the client
  calls straight into the standard library;
* the Flask handler `handle_webhook` is embedded as a function from a
  request (optional `X-Webhook-Signature` header and raw body bytes) to
  either a Python exception or a response together with the list of
  side effects (the `print` calls) it performs.
-/

namespace PyClient

/-- Code points of a Lean string literal, used to write concrete Python
`str` values (`List Nat`) readably. -/
def pystr (s : String) : List Nat := s.data.map Char.toNat

/-! ## UTF-8 encoding (`str.encode('utf-8')`) -/

/-- UTF-8 encoding of a single Unicode code point. -/
def utf8EncodeChar (c : Nat) : List Nat :=
  if c < 0x80 then [c]
  else if c < 0x800 then [0xC0 + c / 64, 0x80 + c % 64]
  else if c < 0x10000 then
    [0xE0 + c / 4096, 0x80 + (c / 64) % 64, 0x80 + c % 64]
  else
    [0xF0 + c / 0x40000, 0x80 + (c / 4096) % 64, 0x80 + (c / 64) % 64,
      0x80 + c % 64]

/-- Python `s.encode('utf-8')`: UTF-8 bytes of a code-point sequence. -/
def utf8Encode (cs : List Nat) : List Nat := cs.flatMap utf8EncodeChar

/-! ## SHA-256 (`hashlib.sha256`), on byte lists, words as `Nat` mod `2^32` -/

/-- Right rotation of a 32-bit word. -/
def rotr (n x : Nat) : Nat := ((x / 2 ^ n) + (x % 2 ^ n) * 2 ^ (32 - n)) % 2 ^ 32

def shaCh (x y z : Nat) : Nat := (x &&& y) ^^^ ((x ^^^ 0xFFFFFFFF) &&& z)

def shaMaj (x y z : Nat) : Nat := (x &&& y) ^^^ (x &&& z) ^^^ (y &&& z)

def bigSigma0 (x : Nat) : Nat := rotr 2 x ^^^ rotr 13 x ^^^ rotr 22 x

def bigSigma1 (x : Nat) : Nat := rotr 6 x ^^^ rotr 11 x ^^^ rotr 25 x

def smallSigma0 (x : Nat) : Nat := rotr 7 x ^^^ rotr 18 x ^^^ (x / 2 ^ 3)

def smallSigma1 (x : Nat) : Nat := rotr 17 x ^^^ rotr 19 x ^^^ (x / 2 ^ 10)

/-- The 64 SHA-256 round constants (the standard values, in decimal). -/
def K256 : List Nat :=
  [1116352408, 1899447441, 3049323471, 3921009573, 961987163,
   1508970993, 2453635748, 2870763221, 3624381080, 310598401,
   607225278, 1426881987, 1925078388, 2162078206, 2614888103,
   3248222580, 3835390401, 4022224774, 264347078, 604807628,
   770255983, 1249150122, 1555081692, 1996064986, 2554220882,
   2821834349, 2952996808, 3210313671, 3336571891, 3584528711,
   113926993, 338241895, 666307205, 773529912, 1294757372,
   1396182291, 1695183700, 1986661051, 2177026350, 2456956037,
   2730485921, 2820302411, 3259730800, 3345764771, 3516065817,
   3600352804, 4094571909, 275423344, 430227734, 506948616,
   659060556, 883997877, 958139571, 1322822218, 1537002063,
   1747873779, 1955562222, 2024104815, 2227730452, 2361852424,
   2428436474, 2756734187, 3204031479, 3329325298]

/-- Working state of the SHA-256 compression function (eight 32-bit words). -/
structure SHAState where
  a : Nat
  b : Nat
  c : Nat
  d : Nat
  e : Nat
  f : Nat
  g : Nat
  h : Nat

/-- Initial SHA-256 hash value (the standard values, in decimal). -/
def initState : SHAState :=
  ⟨1779033703, 3144134277, 1013904242, 2773480762,
   1359893119, 2600822924, 528734635, 1541459225⟩

/-- Group bytes into big-endian 32-bit words. -/
def toWords : List Nat → List Nat
  | b0 :: b1 :: b2 :: b3 :: rest =>
    (b0 * 2 ^ 24 + b1 * 2 ^ 16 + b2 * 2 ^ 8 + b3) :: toWords rest
  | _ => []

/-- Extend the 16 message words by `n` further schedule words. -/
def extendW (ws : List Nat) : Nat → List Nat
  | 0 => ws
  | n + 1 =>
    let t := ws.length
    let w := (smallSigma1 (ws.getD (t - 2) 0) + ws.getD (t - 7) 0 +
              smallSigma0 (ws.getD (t - 15) 0) + ws.getD (t - 16) 0) % 2 ^ 32
    extendW (ws ++ [w]) n

/-- One SHA-256 round. -/
def round (s : SHAState) (wk : Nat × Nat) : SHAState :=
  let t1 := (s.h + bigSigma1 s.e + shaCh s.e s.f s.g + wk.2 + wk.1) % 2 ^ 32
  let t2 := (bigSigma0 s.a + shaMaj s.a s.b s.c) % 2 ^ 32
  ⟨(t1 + t2) % 2 ^ 32, s.a, s.b, s.c, (s.d + t1) % 2 ^ 32, s.e, s.f, s.g⟩

/-- Compression of one 64-byte block into the running hash state. -/
def compressBlock (st : SHAState) (block : List Nat) : SHAState :=
  let w := extendW (toWords block) 48
  let s := (List.zip w K256).foldl round st
  ⟨(st.a + s.a) % 2 ^ 32, (st.b + s.b) % 2 ^ 32, (st.c + s.c) % 2 ^ 32,
   (st.d + s.d) % 2 ^ 32, (st.e + s.e) % 2 ^ 32, (st.f + s.f) % 2 ^ 32,
   (st.g + s.g) % 2 ^ 32, (st.h + s.h) % 2 ^ 32⟩

/-- Big-endian 8-byte encoding of a (64-bit) length value. -/
def toBytes8 (n : Nat) : List Nat :=
  [n / 2 ^ 56 % 256, n / 2 ^ 48 % 256, n / 2 ^ 40 % 256, n / 2 ^ 32 % 256,
   n / 2 ^ 24 % 256, n / 2 ^ 16 % 256, n / 2 ^ 8 % 256, n % 256]

/-- SHA-256 padding: `0x80`, zeros, and the 64-bit big-endian bit length. -/
def padMsg (msg : List Nat) : List Nat :=
  let L := msg.length
  msg ++ 0x80 :: List.replicate ((64 - (L + 9) % 64) % 64) 0 ++ toBytes8 (8 * L)

/-- Split a byte list into 64-byte blocks (fuel-indexed so that the kernel
can evaluate it; `fuel ≥ l.length` suffices and the wrapper supplies it). -/
def chunks64Fuel : Nat → List Nat → List (List Nat)
  | 0, _ => []
  | _, [] => []
  | fuel + 1, l => l.take 64 :: chunks64Fuel fuel (l.drop 64)

/-- Split a byte list into 64-byte blocks. -/
def chunks64 (l : List Nat) : List (List Nat) := chunks64Fuel l.length l

/-- Big-endian bytes of a 32-bit word. -/
def word32ToBytes (w : Nat) : List Nat :=
  [w / 2 ^ 24 % 256, w / 2 ^ 16 % 256, w / 2 ^ 8 % 256, w % 256]

/-- `hashlib.sha256(msg).digest()`: the 32-byte SHA-256 digest. -/
def sha256 (msg : List Nat) : List Nat :=
  let st := (chunks64 (padMsg msg)).foldl compressBlock initState
  word32ToBytes st.a ++ word32ToBytes st.b ++ word32ToBytes st.c ++
  word32ToBytes st.d ++ word32ToBytes st.e ++ word32ToBytes st.f ++
  word32ToBytes st.g ++ word32ToBytes st.h

/-! ## HMAC-SHA-256 (`hmac.new(key, msg, hashlib.sha256)`) -/

/-- HMAC-SHA-256 over byte lists; block size 64 bytes. -/
def hmacSha256 (key msg : List Nat) : List Nat :=
  let k0 := if key.length ≤ 64 then key else sha256 key
  let kp := k0 ++ List.replicate (64 - k0.length) 0
  sha256 ((kp.map (Nat.xor · 0x5c)) ++
          sha256 ((kp.map (Nat.xor · 0x36)) ++ msg))

/-- One lowercase hexadecimal digit (as a code point). -/
def hexDigit (n : Nat) : Nat := if n < 10 then 48 + n else 87 + n

/-- `.hexdigest()`: lowercase hexadecimal string of a byte list, two hex
digits per byte. -/
def hexdigest (bs : List Nat) : List Nat :=
  bs.flatMap fun b => [hexDigit (b / 16 % 16), hexDigit (b % 16)]

/-! ## `hmac.compare_digest`

CPython's `compare_digest`, applied to two `str` arguments, raises
`TypeError` unless both strings are ASCII-only; otherwise it compares the
ASCII bytes with the constant-time primitive `_tscmp`.  The handler can
also pass `None` (a missing header), which likewise raises `TypeError`.
-/

/-- Python exceptions that the embedded code can raise. -/
inductive PyError where
  | typeError
  | badRequest
  | attributeError
deriving DecidableEq, Repr

/-- CPython's `_tscmp`: scans exactly `b.length` positions whatever the
contents are, or-accumulating the xor of the scanned bytes (comparing `b`
against itself when the lengths differ, with the accumulator seeded to 1).
The second component is the number of loop iterations performed, the cost
of the comparison. -/
def tscmp (a b : List Nat) : Bool × Nat :=
  let left := if a.length = b.length then a else b
  let result := (List.zipWith Nat.xor left b).foldl (· ||| ·)
    (if a.length = b.length then 0 else 1)
  (result = 0, b.length)

/-- Is every code point ASCII?  (`str.isascii()`.) -/
def isAsciiStr (s : List Nat) : Bool := s.all (· < 128)

/-- `hmac.compare_digest(a, b)` where `a` is a `str` or `None` and `b` is a
`str`: `TypeError` on `None` or on non-ASCII input, else `_tscmp`. -/
def compare_digest (a : Option (List Nat)) (b : List Nat) :
    Except PyError Bool :=
  match a with
  | none => .error .typeError
  | some a => if isAsciiStr a && isAsciiStr b then .ok (tscmp a b).1
              else .error .typeError

/-! ## `WebhookVerifier` -/

/-- The `WebhookVerifier` class: holds the UTF-8-encoded secret. -/
structure WebhookVerifier where
  secret : List Nat

/-- `WebhookVerifier.__init__`: stores `secret.encode('utf-8')`, with no
validation of the secret. -/
def WebhookVerifier.init (secret : List Nat) : WebhookVerifier :=
  ⟨utf8Encode secret⟩

/-- `generate_signature`: hex HMAC-SHA-256 of the UTF-8 payload bytes under
the stored secret. -/
def WebhookVerifier.generate_signature (v : WebhookVerifier)
    (payload : List Nat) : List Nat :=
  hexdigest (hmacSha256 v.secret (utf8Encode payload))

/-- `verify_signature`: recomputes the expected signature and calls
`hmac.compare_digest(signature, expected_signature)`.  The candidate is an
`Option` because the handler passes the header value, which may be `None`. -/
def WebhookVerifier.verify_signature (v : WebhookVerifier)
    (payload : List Nat) (signature : Option (List Nat)) :
    Except PyError Bool :=
  compare_digest signature (v.generate_signature payload)

/-! ## UTF-8 decoding (`bytes.decode('utf-8', errors)`)

`request.get_data(as_text=True)` decodes the raw body with Python's UTF-8
codec and the `replace` error handler (werkzeug's default), so we embed
CPython's UTF-8 decoder: strict multi-byte ranges (no overlong forms, no
surrogates, max U+10FFFF), and, under `replace`, one U+FFFD per maximal
valid subpart of an invalid sequence. -/

/-- Is `b` a UTF-8 continuation byte? -/
def contByte (b : Nat) : Bool := 0x80 ≤ b && b ≤ 0xBF

/-- Allowed second byte after a three-byte lead `b`. -/
def cont3 (b b2 : Nat) : Bool :=
  if b = 0xE0 then 0xA0 ≤ b2 && b2 ≤ 0xBF
  else if b = 0xED then 0x80 ≤ b2 && b2 ≤ 0x9F
  else contByte b2

/-- Allowed second byte after a four-byte lead `b`. -/
def cont4 (b b2 : Nat) : Bool :=
  if b = 0xF0 then 0x90 ≤ b2 && b2 ≤ 0xBF
  else if b = 0xF4 then 0x80 ≤ b2 && b2 ≤ 0x8F
  else contByte b2

/-- Decode one UTF-8 character from the front of a byte list, returning the
code point and the remaining bytes, or `none` at an invalid sequence. -/
def parseChar : List Nat → Option (Nat × List Nat)
  | [] => none
  | b :: rest =>
    if b < 0x80 then some (b, rest)
    else if 0xC2 ≤ b ∧ b ≤ 0xDF then
      match rest with
      | b2 :: rest2 =>
        if contByte b2 then some ((b - 0xC0) * 64 + (b2 - 0x80), rest2)
        else none
      | [] => none
    else if 0xE0 ≤ b ∧ b ≤ 0xEF then
      match rest with
      | b2 :: b3 :: rest3 =>
        if cont3 b b2 && contByte b3 then
          some ((b - 0xE0) * 4096 + (b2 - 0x80) * 64 + (b3 - 0x80), rest3)
        else none
      | _ => none
    else if 0xF0 ≤ b ∧ b ≤ 0xF4 then
      match rest with
      | b2 :: b3 :: b4 :: rest4 =>
        if cont4 b b2 && contByte b3 && contByte b4 then
          some ((b - 0xF0) * 0x40000 + (b2 - 0x80) * 4096 +
                (b3 - 0x80) * 64 + (b4 - 0x80), rest4)
        else none
      | _ => none
    else none

/-- Number of bytes consumed by one U+FFFD replacement at an invalid
position: the maximal valid subpart of a multi-byte sequence, at least 1. -/
def invalidSkip : List Nat → Nat
  | [] => 1
  | b :: rest =>
    if 0xE0 ≤ b ∧ b ≤ 0xEF then
      match rest with
      | b2 :: _ => if cont3 b b2 then 2 else 1
      | [] => 1
    else if 0xF0 ≤ b ∧ b ≤ 0xF4 then
      match rest with
      | b2 :: b3 :: _ => if cont4 b b2 then (if contByte b3 then 3 else 2) else 1
      | [b2] => if cont4 b b2 then 2 else 1
      | [] => 1
    else 1

/-- Strict UTF-8 decoding (fuel-indexed; `fuel ≥ bs.length` suffices). -/
def utf8DecodeFuel : Nat → List Nat → Option (List Nat)
  | _, [] => some []
  | 0, _ :: _ => none
  | fuel + 1, bs =>
    match parseChar bs with
    | some (c, rest) => (utf8DecodeFuel fuel rest).map (c :: ·)
    | none => none

/-- `bytes.decode('utf-8')` (strict): the code points, or `none` if the
bytes are not valid UTF-8. -/
def utf8Decode? (bs : List Nat) : Option (List Nat) :=
  utf8DecodeFuel bs.length bs

/-- UTF-8 decoding with `errors='replace'` (fuel-indexed). -/
def utf8ReplaceFuel : Nat → List Nat → List Nat
  | _, [] => []
  | 0, _ :: _ => []
  | fuel + 1, bs =>
    match parseChar bs with
    | some (c, rest) => c :: utf8ReplaceFuel fuel rest
    | none => 0xFFFD :: utf8ReplaceFuel fuel (bs.drop (invalidSkip bs))

/-- `bytes.decode('utf-8', errors='replace')`: invalid sequences become
U+FFFD. -/
def utf8DecodeReplace (bs : List Nat) : List Nat :=
  utf8ReplaceFuel bs.length bs

/-! ## JSON values and `request.get_json()`

A Python value as produced by `json.loads`: `None`, booleans, ints,
floats, strings, lists and dicts (association lists; on duplicate keys
Python keeps the last, which the lookup below mirrors).  A float is
carried as the text of its numeral (`flt`): the handler never inspects
numeric values — it only compares the `type` field against string
literals, and a Python float never equals a string — so the literal text
determines all behavior the embedding observes. -/

inductive Json where
  | null
  | bool (b : Bool)
  | num (n : Int)
  | flt (lit : List Nat)
  | str (s : List Nat)
  | arr (xs : List Json)
  | obj (fields : List (List Nat × Json))

/-- Python `==` between a parsed JSON value (possibly `None`) and a string
literal: true exactly when the value is that string. -/
def jsonEqStr (v : Option Json) (s : List Nat) : Bool :=
  match v with
  | some (.str t) => t == s
  | _ => false

/-- `dict.get(k)`: last binding of `k` wins, `none` when absent. -/
def dictGet (fields : List (List Nat × Json)) (k : List Nat) : Option Json :=
  fields.foldl (fun acc kv => if kv.1 = k then some kv.2 else acc) none

/-- JSON whitespace. -/
def isWsChar (c : Nat) : Bool := c = 32 || c = 9 || c = 10 || c = 13

def skipWs (s : List Nat) : List Nat := s.dropWhile isWsChar

/-- Decimal digits at the front of the input. -/
def parseDigits (s : List Nat) : List Nat × List Nat :=
  s.span fun c => 48 ≤ c && c ≤ 57

/-- Hexadecimal digit value of a code point (`0-9`, `a-f`, `A-F`). -/
def hexVal (c : Nat) : Option Nat :=
  if 48 ≤ c ∧ c ≤ 57 then some (c - 48)
  else if 97 ≤ c ∧ c ≤ 102 then some (c - 87)
  else if 65 ≤ c ∧ c ≤ 70 then some (c - 55)
  else none

/-- A JSON numeral, per Python json's `NUMBER_RE`:
`-? (0 | [1-9][0-9]*)` then an optional fraction `. [0-9]+` and an
optional exponent `[eE] [+-]? [0-9]+`, each part dropped rather than
failing when it does not match (as the regex does).  A bare integer
becomes a Python `int`; a numeral with a fraction or an exponent becomes
a float, carried as its literal text. -/
def parseNumber (s : List Nat) : Option (Json × List Nat) :=
  let intPart : Option (Bool × List Nat × List Nat) :=
    match s with
    | 45 :: 48 :: t => some (true, [48], t)
    | 45 :: c :: t =>
      if 49 ≤ c ∧ c ≤ 57 then
        some (true, c :: (parseDigits t).1, (parseDigits t).2)
      else none
    | 48 :: t => some (false, [48], t)
    | c :: t =>
      if 49 ≤ c ∧ c ≤ 57 then
        some (false, c :: (parseDigits t).1, (parseDigits t).2)
      else none
    | [] => none
  match intPart with
  | none => none
  | some (neg, intTok, s2) =>
    let frac : List Nat × List Nat :=
      match s2 with
      | 46 :: t =>
        match parseDigits t with
        | ([], _) => ([], s2)
        | (ds, r) => (46 :: ds, r)
      | _ => ([], s2)
    let expPart : List Nat × List Nat :=
      match frac.2 with
      | e :: t =>
        if e = 101 ∨ e = 69 then
          let sgn : List Nat × List Nat :=
            match t with
            | 43 :: u => ([43], u)
            | 45 :: u => ([45], u)
            | _ => ([], t)
          match parseDigits sgn.2 with
          | ([], _) => ([], frac.2)
          | (ds, r) => (e :: sgn.1 ++ ds, r)
        else ([], frac.2)
      | [] => ([], frac.2)
    if frac.1 = [] ∧ expPart.1 = [] then
      let v : Nat := intTok.foldl (fun n d => n * 10 + (d - 48)) 0
      some (.num (if neg then -(v : Int) else (v : Int)), s2)
    else
      some (.flt ((if neg then [45] else []) ++ intTok ++ frac.1 ++ expPart.1),
        expPart.2)

/-- Body of a JSON string after the opening quote, up to the closing
quote: CPython's `py_scanstring` — the escapes `\" \\ \/ \n \t \r \b \f`
and `\uXXXX` (a high surrogate immediately followed by a `\u`-escaped low
surrogate combines into one astral code point; a lone surrogate is kept,
as Python allows), raw control characters rejected (strict mode). -/
def parseStrBody : Nat → List Nat → Option (List Nat × List Nat)
  | 0, _ => none
  | _, [] => none
  | fuel + 1, c :: rest =>
    if c = 34 then some ([], rest)
    else if c = 92 then
      match rest with
      | e :: rest2 =>
        if e = 117 then
          match rest2 with
          | h1 :: h2 :: h3 :: h4 :: rest6 =>
            match hexVal h1, hexVal h2, hexVal h3, hexVal h4 with
            | some v1, some v2, some v3, some v4 =>
              let c1 := ((v1 * 16 + v2) * 16 + v3) * 16 + v4
              if 0xD800 ≤ c1 ∧ c1 ≤ 0xDBFF then
                match rest6 with
                | 92 :: 117 :: rest8 =>
                  match rest8 with
                  | g1 :: g2 :: g3 :: g4 :: rest12 =>
                    match hexVal g1, hexVal g2, hexVal g3, hexVal g4 with
                    | some w1, some w2, some w3, some w4 =>
                      let c2 := ((w1 * 16 + w2) * 16 + w3) * 16 + w4
                      if 0xDC00 ≤ c2 ∧ c2 ≤ 0xDFFF then
                        (parseStrBody fuel rest12).map fun p =>
                          ((0x10000 + (c1 - 0xD800) * 1024 + (c2 - 0xDC00)) ::
                            p.1, p.2)
                      else
                        (parseStrBody fuel rest6).map fun p => (c1 :: p.1, p.2)
                    | _, _, _, _ => none
                  | _ => none
                | _ => (parseStrBody fuel rest6).map fun p => (c1 :: p.1, p.2)
              else
                (parseStrBody fuel rest6).map fun p => (c1 :: p.1, p.2)
            | _, _, _, _ => none
          | _ => none
        else
          let esc : Option Nat :=
            if e = 34 then some 34 else if e = 92 then some 92
            else if e = 47 then some 47 else if e = 110 then some 10
            else if e = 116 then some 9 else if e = 114 then some 13
            else if e = 98 then some 8 else if e = 102 then some 12
            else none
          match esc with
          | some ch => (parseStrBody fuel rest2).map fun p => (ch :: p.1, p.2)
          | none => none
      | [] => none
    else if c < 32 then none
    else (parseStrBody fuel rest).map fun p => (c :: p.1, p.2)

mutual

/-- One JSON value (fuel-indexed recursive descent). -/
def parseJsonVal : Nat → List Nat → Option (Json × List Nat)
  | 0, _ => none
  | fuel + 1, s =>
    match skipWs s with
    | [] => none
    | c :: rest =>
      if c = 110 then
        match rest with
        | 117 :: 108 :: 108 :: r => some (.null, r)
        | _ => none
      else if c = 116 then
        match rest with
        | 114 :: 117 :: 101 :: r => some (.bool true, r)
        | _ => none
      else if c = 102 then
        match rest with
        | 97 :: 108 :: 115 :: 101 :: r => some (.bool false, r)
        | _ => none
      else if c = 34 then
        (parseStrBody (rest.length + 1) rest).map fun p => (.str p.1, p.2)
      else if c = 91 then
        match skipWs rest with
        | 93 :: r => some (.arr [], r)
        | s1 => (parseArrElems fuel s1).map fun p => (.arr p.1, p.2)
      else if c = 123 then
        match skipWs rest with
        | 125 :: r => some (.obj [], r)
        | s1 => (parseObjFields fuel s1).map fun p => (.obj p.1, p.2)
      else if c = 45 then
        match rest with
        | 73 :: 110 :: 102 :: 105 :: 110 :: 105 :: 116 :: 121 :: r =>
          some (.flt (pystr "-Infinity"), r)
        | _ => parseNumber (45 :: rest)
      else if 48 ≤ c ∧ c ≤ 57 then
        parseNumber (c :: rest)
      else if c = 78 then
        match rest with
        | 97 :: 78 :: r => some (.flt (pystr "NaN"), r)
        | _ => none
      else if c = 73 then
        match rest with
        | 110 :: 102 :: 105 :: 110 :: 105 :: 116 :: 121 :: r =>
          some (.flt (pystr "Infinity"), r)
        | _ => none
      else none

/-- Comma-separated array elements up to `]`. -/
def parseArrElems : Nat → List Nat → Option (List Json × List Nat)
  | 0, _ => none
  | fuel + 1, s =>
    match parseJsonVal fuel s with
    | none => none
    | some (v, r) =>
      match skipWs r with
      | 44 :: r2 => (parseArrElems fuel r2).map fun p => (v :: p.1, p.2)
      | 93 :: r2 => some ([v], r2)
      | _ => none

/-- Comma-separated `"key": value` fields up to the closing brace. -/
def parseObjFields : Nat → List Nat → Option (List (List Nat × Json) × List Nat)
  | 0, _ => none
  | fuel + 1, s =>
    match skipWs s with
    | 34 :: rest =>
      match parseStrBody (rest.length + 1) rest with
      | none => none
      | some (k, r) =>
        match skipWs r with
        | 58 :: r2 =>
          match parseJsonVal fuel r2 with
          | none => none
          | some (v, r3) =>
            match skipWs r3 with
            | 44 :: r4 => (parseObjFields fuel r4).map fun p => ((k, v) :: p.1, p.2)
            | 125 :: r4 => some ([(k, v)], r4)
            | _ => none
        | _ => none
    | _ => none

end

/-- `json.loads` on a decoded text (code points): a single JSON value with
only trailing whitespace after it.  (CPython's interpreter recursion
limit, which turns very deeply nested — around a thousand levels — valid
documents into a `RecursionError`, is not modelled; the fuel `2·length+2`
always suffices for the nesting a text of that length can express.) -/
def parseJson (text : List Nat) : Option Json :=
  match parseJsonVal (2 * text.length + 2) text with
  | some (v, rest) => if skipWs rest = [] then some v else none
  | none => none

/-- `request.get_json()`: Flask runs `json.loads` on the *raw body bytes*,
which strictly decodes them as UTF-8 (after `json.detect_encoding` strips
a UTF-8 byte-order mark; its UTF-16/32 sniffing from the first bytes is
outside the model) and then parses; `none` is the failure Flask's
`on_json_loading_failed` converts into a 400 `BadRequest`. -/
def get_json (raw : List Nat) : Option Json :=
  match raw with
  | 0xEF :: 0xBB :: 0xBF :: rest => (utf8Decode? rest).bind parseJson
  | _ => (utf8Decode? raw).bind parseJson

/-! ## The Flask webhook handler -/

/-- An incoming HTTP request: the optional `X-Webhook-Signature` header
(code points of the header value) and the raw body bytes. -/
structure Request where
  signatureHeader : Option (List Nat)
  rawBody : List Nat

/-- A response: status code and JSON body. -/
structure Response where
  status : Nat
  body : Json

/-- An observable side effect of the handler (its `print` calls). -/
inductive Effect where
  | purchaseCompleted (d : Option Json)
  | contentUploaded (d : Option Json)
  | payoutProcessed (d : Option Json)
  | unknownEvent (t : Option Json)

/-- Body of the 401 response: `{'error': 'Invalid signature'}`. -/
def invalidSignatureBody : Json :=
  .obj [(pystr "error", .str (pystr "Invalid signature"))]

/-- Body of the success response: `{'received': True}`. -/
def receivedBody : Json := .obj [(pystr "received", .bool true)]

/-- The `if`/`elif`/`else` dispatch on `data.get('type')` (the handler's
print calls, as effects). -/
def eventEffects (fields : List (List Nat × Json)) : List Effect :=
  let event_type := dictGet fields (pystr "type")
  let event_data := dictGet fields (pystr "data")
  if jsonEqStr event_type (pystr "purchase.completed") then
    [Effect.purchaseCompleted event_data]
  else if jsonEqStr event_type (pystr "content.uploaded") then
    [Effect.contentUploaded event_data]
  else if jsonEqStr event_type (pystr "payout.processed") then
    [Effect.payoutProcessed event_data]
  else
    [Effect.unknownEvent event_type]

/-- The `handle_webhook` route of `create_flask_webhook_handler(secret)`:
verification runs over the replace-decoded body text
(`get_data(as_text=True)`), while `request.get_json()` runs `json.loads`
on the raw body bytes with a strict UTF-8 decode, raising a 400
`BadRequest` when the body does not decode or does not parse; `.get` on a
parsed non-dict raises `AttributeError`. -/
def handle_webhook (secret : List Nat) (req : Request) :
    Except PyError (Response × List Effect) :=
  let verifier := WebhookVerifier.init secret
  let payload := utf8DecodeReplace req.rawBody
  match verifier.verify_signature payload req.signatureHeader with
  | .error e => .error e
  | .ok false => .ok (⟨401, invalidSignatureBody⟩, [])
  | .ok true =>
    match get_json req.rawBody with
    | none => .error .badRequest
    | some (.obj fields) => .ok (⟨200, receivedBody⟩, eventEffects fields)
    | some _ => .error .attributeError

/-- The byte sequence the handler's verification MACs for a request:
`handle_webhook` decodes the raw body as text (`get_data(as_text=True)`)
and `verify_signature` re-encodes that text as UTF-8 before hashing it. -/
def macBytes (req : Request) : List Nat :=
  utf8Encode (utf8DecodeReplace req.rawBody)

end PyClient

/-!
## Facts about the embedded primitives
-/

namespace PyClient

theorem lor_eq_zero_iff (a b : Nat) : a ||| b = 0 ↔ a = 0 ∧ b = 0 := by
  constructor
  · intro h
    have hb : ∀ i, (a ||| b).testBit i = false := by simp [h]
    constructor <;> apply Nat.eq_of_testBit_eq <;> intro i <;>
      have hi := hb i <;> simp only [Nat.testBit_or, Bool.or_eq_false_iff] at hi <;>
      simp [hi.1, hi.2]
  · rintro ⟨rfl, rfl⟩; rfl

theorem foldl_or_eq_zero_iff (l : List Nat) (i : Nat) :
    l.foldl (· ||| ·) i = 0 ↔ i = 0 ∧ ∀ x ∈ l, x = 0 := by
  induction l generalizing i with
  | nil => simp
  | cons x xs ih =>
    simp only [List.foldl_cons, ih, lor_eq_zero_iff, List.mem_cons]
    constructor
    · rintro ⟨⟨hi, hx⟩, hxs⟩
      exact ⟨hi, fun y hy => by rcases hy with rfl | hy
                                · exact hx
                                · exact hxs y hy⟩
    · rintro ⟨hi, hall⟩
      exact ⟨⟨hi, hall x (.inl rfl)⟩, fun y hy => hall y (.inr hy)⟩

theorem zipWith_xor_eq_zero_iff : ∀ (a b : List Nat), a.length = b.length →
    ((∀ x ∈ List.zipWith Nat.xor a b, x = 0) ↔ a = b)
  | [], [], _ => by simp
  | [], _ :: _, h => by simp at h
  | _ :: _, [], h => by simp at h
  | x :: xs, y :: ys, h => by
    simp only [List.length_cons] at h
    simp only [List.zipWith_cons_cons, List.mem_cons, List.cons.injEq]
    constructor
    · intro hall
      refine ⟨Nat.xor_eq_zero.mp (hall _ (.inl rfl)), ?_⟩
      exact (zipWith_xor_eq_zero_iff xs ys (by omega)).mp fun z hz => hall z (.inr hz)
    · rintro ⟨rfl, rfl⟩
      intro z hz
      rcases hz with rfl | hz
      · exact Nat.xor_self x
      · exact ((zipWith_xor_eq_zero_iff xs xs rfl).mpr rfl) z hz

theorem tscmp_fst (a b : List Nat) : (tscmp a b).1 = true ↔ a = b := by
  unfold tscmp
  simp only [decide_eq_true_eq]
  by_cases h : a.length = b.length
  · simp only [if_pos h, foldl_or_eq_zero_iff, true_and]
    exact zipWith_xor_eq_zero_iff a b h
  · simp only [if_neg h, foldl_or_eq_zero_iff]
    constructor
    · rintro ⟨h1, -⟩; omega
    · rintro rfl; exact absurd rfl h

theorem tscmp_fst_beq (a b : List Nat) : (tscmp a b).1 = (a == b) := by
  by_cases h : a = b
  · subst h
    simp [(tscmp_fst a a).mpr rfl]
  · have h1 : (tscmp a b).1 = false :=
      Bool.eq_false_iff.mpr fun hh => h ((tscmp_fst a b).mp hh)
    simp [h1, Ne.symm, h]

theorem tscmp_snd (a b : List Nat) : (tscmp a b).2 = b.length := rfl

theorem hexDigit_range {n : Nat} (h : n < 16) :
    (48 ≤ hexDigit n ∧ hexDigit n ≤ 57) ∨ (97 ≤ hexDigit n ∧ hexDigit n ≤ 102) := by
  unfold hexDigit
  split <;> omega

theorem hexdigest_mem (bs : List Nat) :
    ∀ c ∈ hexdigest bs, (48 ≤ c ∧ c ≤ 57) ∨ (97 ≤ c ∧ c ≤ 102) := by
  intro c hc
  unfold hexdigest at hc
  simp only [List.mem_flatMap, List.mem_cons, List.not_mem_nil, or_false] at hc
  obtain ⟨b, -, hc | hc⟩ := hc <;> subst hc <;>
    exact hexDigit_range (Nat.mod_lt _ (by norm_num))

theorem hexdigest_ascii (bs : List Nat) : isAsciiStr (hexdigest bs) = true := by
  unfold isAsciiStr
  rw [List.all_eq_true]
  intro c hc
  have := hexdigest_mem bs c hc
  simp only [decide_eq_true_eq]
  omega

theorem hexdigest_length (bs : List Nat) : (hexdigest bs).length = 2 * bs.length := by
  unfold hexdigest
  induction bs with
  | nil => rfl
  | cons b bs ih =>
    simp only [List.flatMap_cons, List.length_append, List.length_cons, ih,
      List.length_nil, List.length_cons]
    omega

theorem sha256_length (msg : List Nat) : (sha256 msg).length = 32 := by
  simp [sha256, word32ToBytes]

theorem generate_signature_length (v : WebhookVerifier) (p : List Nat) :
    (v.generate_signature p).length = 64 := by
  unfold WebhookVerifier.generate_signature hmacSha256
  rw [hexdigest_length, sha256_length]

end PyClient

/-! ## UTF-8 round-trip facts -/

namespace PyClient


theorem contByte_spec {b : Nat} (h : contByte b = true) : 0x80 ≤ b ∧ b ≤ 0xBF := by
  unfold contByte at h
  simp only [Bool.and_eq_true, decide_eq_true_eq] at h
  exact h

theorem cont3_spec {b b2 : Nat} (h : cont3 b b2 = true) :
    (b = 0xE0 ∧ 0xA0 ≤ b2 ∧ b2 ≤ 0xBF) ∨ (b ≠ 0xE0 ∧ 0x80 ≤ b2 ∧ b2 ≤ 0xBF) := by
  unfold cont3 at h
  split at h
  · rename_i hb
    simp only [Bool.and_eq_true, decide_eq_true_eq] at h
    exact .inl ⟨hb, h.1, h.2⟩
  · split at h
    · rename_i hb hb2
      simp only [Bool.and_eq_true, decide_eq_true_eq] at h
      exact .inr ⟨hb, by omega⟩
    · rename_i hb _
      have := contByte_spec h
      exact .inr ⟨hb, this.1, this.2⟩

theorem cont4_spec {b b2 : Nat} (h : cont4 b b2 = true) :
    (b = 0xF0 ∧ 0x90 ≤ b2 ∧ b2 ≤ 0xBF) ∨ (b ≠ 0xF0 ∧ 0x80 ≤ b2 ∧ b2 ≤ 0xBF) := by
  unfold cont4 at h
  split at h
  · rename_i hb
    simp only [Bool.and_eq_true, decide_eq_true_eq] at h
    exact .inl ⟨hb, h.1, h.2⟩
  · split at h
    · rename_i hb hb2
      simp only [Bool.and_eq_true, decide_eq_true_eq] at h
      exact .inr ⟨hb, by omega⟩
    · rename_i hb _
      have := contByte_spec h
      exact .inr ⟨hb, this.1, this.2⟩

theorem parseChar_encode : ∀ {bs : List Nat} {c : Nat} {rest : List Nat},
    parseChar bs = some (c, rest) → utf8EncodeChar c ++ rest = bs := by
  intro bs c rest h
  match bs with
  | [] => simp [parseChar] at h
  | [b] =>
    simp only [parseChar] at h
    split at h
    · rename_i h1
      simp only [Option.some.injEq, Prod.mk.injEq] at h
      obtain ⟨rfl, rfl⟩ := h
      unfold utf8EncodeChar
      rw [if_pos h1]
      rfl
    · split at h
      · simp at h
      · split at h
        · simp at h
        · split at h
          · simp at h
          · simp at h
  | [b, b2] =>
    simp only [parseChar] at h
    split at h
    · rename_i h1
      simp only [Option.some.injEq, Prod.mk.injEq] at h
      obtain ⟨rfl, rfl⟩ := h
      unfold utf8EncodeChar
      rw [if_pos h1]
      rfl
    · split at h
      · rename_i h1 h2
        split at h
        · rename_i hcont
          simp only [Option.some.injEq, Prod.mk.injEq] at h
          obtain ⟨rfl, rfl⟩ := h
          have hb2 := contByte_spec hcont
          unfold utf8EncodeChar
          rw [if_neg (by omega), if_pos (by omega)]
          simp only [List.cons_append, List.nil_append, List.cons.injEq]
          exact ⟨by omega, by omega, trivial⟩
        · simp at h
      · split at h
        · simp at h
        · split at h
          · simp at h
          · simp at h
  | [b, b2, b3] =>
    simp only [parseChar] at h
    split at h
    · rename_i h1
      simp only [Option.some.injEq, Prod.mk.injEq] at h
      obtain ⟨rfl, rfl⟩ := h
      unfold utf8EncodeChar
      rw [if_pos h1]
      rfl
    · split at h
      · rename_i h1 h2
        split at h
        · rename_i hcont
          simp only [Option.some.injEq, Prod.mk.injEq] at h
          obtain ⟨rfl, rfl⟩ := h
          have hb2 := contByte_spec hcont
          unfold utf8EncodeChar
          rw [if_neg (by omega), if_pos (by omega)]
          simp only [List.cons_append, List.nil_append, List.cons.injEq]
          exact ⟨by omega, by omega, trivial⟩
        · simp at h
      · split at h
        · rename_i h1 h2 h3
          split at h
          · rename_i hcont
            simp only [Bool.and_eq_true] at hcont
            simp only [Option.some.injEq, Prod.mk.injEq] at h
            obtain ⟨rfl, rfl⟩ := h
            have hb3 := contByte_spec hcont.2
            unfold utf8EncodeChar
            rcases cont3_spec hcont.1 with ⟨hbE, hb2a, hb2b⟩ | ⟨hbE, hb2a, hb2b⟩ <;>
              rw [if_neg (by omega), if_neg (by omega), if_pos (by omega)] <;>
              simp only [List.cons_append, List.nil_append, List.cons.injEq] <;>
              exact ⟨by omega, by omega, by omega, trivial⟩
          · simp at h
        · split at h
          · simp at h
          · simp at h
  | b :: b2 :: b3 :: b4 :: tl4 =>
    simp only [parseChar] at h
    split at h
    · rename_i h1
      simp only [Option.some.injEq, Prod.mk.injEq] at h
      obtain ⟨rfl, rfl⟩ := h
      unfold utf8EncodeChar
      rw [if_pos h1]
      rfl
    · split at h
      · rename_i h1 h2
        split at h
        · rename_i hcont
          simp only [Option.some.injEq, Prod.mk.injEq] at h
          obtain ⟨rfl, rfl⟩ := h
          have hb2 := contByte_spec hcont
          unfold utf8EncodeChar
          rw [if_neg (by omega), if_pos (by omega)]
          simp only [List.cons_append, List.nil_append, List.cons.injEq]
          exact ⟨by omega, by omega, trivial⟩
        · simp at h
      · split at h
        · rename_i h1 h2 h3
          split at h
          · rename_i hcont
            simp only [Bool.and_eq_true] at hcont
            simp only [Option.some.injEq, Prod.mk.injEq] at h
            obtain ⟨rfl, rfl⟩ := h
            have hb3 := contByte_spec hcont.2
            unfold utf8EncodeChar
            rcases cont3_spec hcont.1 with ⟨hbE, hb2a, hb2b⟩ | ⟨hbE, hb2a, hb2b⟩ <;>
              rw [if_neg (by omega), if_neg (by omega), if_pos (by omega)] <;>
              simp only [List.cons_append, List.nil_append, List.cons.injEq] <;>
              exact ⟨by omega, by omega, by omega, trivial⟩
          · simp at h
        · split at h
          · rename_i h1 h2 h3 h4
            split at h
            · rename_i hcont
              simp only [Bool.and_eq_true] at hcont
              simp only [Option.some.injEq, Prod.mk.injEq] at h
              obtain ⟨rfl, rfl⟩ := h
              have hb3 := contByte_spec hcont.1.2
              have hb4 := contByte_spec hcont.2
              unfold utf8EncodeChar
              rcases cont4_spec hcont.1.1 with ⟨hbF, hb2a, hb2b⟩ | ⟨hbF, hb2a, hb2b⟩ <;>
                rw [if_neg (by omega), if_neg (by omega), if_neg (by omega)] <;>
                simp only [List.cons_append, List.nil_append, List.cons.injEq] <;>
                exact ⟨by omega, by omega, by omega, by omega, trivial⟩
            · simp at h
          · simp at h



theorem utf8EncodeChar_length_pos (c : Nat) : 0 < (utf8EncodeChar c).length := by
  unfold utf8EncodeChar
  split_ifs <;> simp

theorem utf8Encode_cons (c : Nat) (cs : List Nat) :
    utf8Encode (c :: cs) = utf8EncodeChar c ++ utf8Encode cs := by
  simp [utf8Encode]

theorem utf8DecodeFuel_encode : ∀ (fuel : Nat) (bs cs : List Nat),
    utf8DecodeFuel fuel bs = some cs → utf8Encode cs = bs
  | fuel, [], cs, h => by
    simp only [utf8DecodeFuel, Option.some.injEq] at h
    subst h
    rfl
  | 0, _ :: _, cs, h => by simp [utf8DecodeFuel] at h
  | fuel + 1, b :: tl, cs, h => by
    simp only [utf8DecodeFuel] at h
    cases hp : parseChar (b :: tl) with
    | none => rw [hp] at h; simp at h
    | some cr =>
      obtain ⟨c, rest⟩ := cr
      rw [hp] at h
      simp only [Option.map_eq_some'] at h
      obtain ⟨cs', hdec, rfl⟩ := h
      rw [utf8Encode_cons, utf8DecodeFuel_encode fuel rest cs' hdec,
        parseChar_encode hp]

theorem utf8ReplaceFuel_of_decode : ∀ (fuel fuel' : Nat) (bs cs : List Nat),
    bs.length ≤ fuel' → utf8DecodeFuel fuel bs = some cs →
    utf8ReplaceFuel fuel' bs = cs
  | fuel, fuel', [], cs, _, h => by
    simp only [utf8DecodeFuel, Option.some.injEq] at h
    subst h
    simp [utf8ReplaceFuel]
  | 0, _, _ :: _, cs, _, h => by simp [utf8DecodeFuel] at h
  | fuel + 1, fuel', b :: tl, cs, hlen, h => by
    simp only [utf8DecodeFuel] at h
    cases hp : parseChar (b :: tl) with
    | none => rw [hp] at h; simp at h
    | some cr =>
      obtain ⟨c, rest⟩ := cr
      rw [hp] at h
      simp only [Option.map_eq_some'] at h
      obtain ⟨cs', hdec, rfl⟩ := h
      cases fuel' with
      | zero => simp at hlen
      | succ f' =>
        have henc := parseChar_encode hp
        have hrest : rest.length ≤ f' := by
          have h1 : (utf8EncodeChar c).length + rest.length = tl.length + 1 := by
            have := congrArg List.length henc
            simpa [List.length_append] using this
          have h2 := utf8EncodeChar_length_pos c
          simp only [List.length_cons] at hlen
          omega
        simp only [utf8ReplaceFuel]
        rw [hp]
        simp only [List.cons.injEq, true_and]
        exact utf8ReplaceFuel_of_decode fuel f' rest cs' hrest hdec

/-- Valid UTF-8 bytes round-trip: strict decoding succeeding, the
`replace` decoder agrees with it and re-encoding gives back the original
bytes. -/
theorem utf8Decode_roundtrip {bs cs : List Nat} (h : utf8Decode? bs = some cs) :
    utf8DecodeReplace bs = cs ∧ utf8Encode cs = bs := by
  unfold utf8Decode? at h
  exact ⟨utf8ReplaceFuel_of_decode _ _ bs cs le_rfl h,
    utf8DecodeFuel_encode _ bs cs h⟩

end PyClient

namespace PyClient

theorem generate_signature_ascii (v : WebhookVerifier) (p : List Nat) :
    isAsciiStr (v.generate_signature p) = true := by
  unfold WebhookVerifier.generate_signature
  exact hexdigest_ascii _

theorem hexDigit_mem {n : Nat} (h : n < 16) :
    hexDigit n ∈ pystr "0123456789abcdef" := by
  interval_cases n <;> decide

theorem hexdigest_mem_hex (bs : List Nat) :
    ∀ c ∈ hexdigest bs, c ∈ pystr "0123456789abcdef" := by
  intro c hc
  unfold hexdigest at hc
  simp only [List.mem_flatMap, List.mem_cons, List.not_mem_nil, or_false] at hc
  obtain ⟨b, -, hc | hc⟩ := hc <;> subst hc <;>
    exact hexDigit_mem (Nat.mod_lt _ (by norm_num))

end PyClient

namespace PyClient

/-- C1: for every secret and payload, verifying a signature the verifier
itself generated succeeds: `verify_signature(P, generate_signature(P))`
returns `True`. -/
theorem C1_sign_verify_roundtrip (secret payload : List Nat) :
    (WebhookVerifier.init secret).verify_signature payload
      (some ((WebhookVerifier.init secret).generate_signature payload)) =
      .ok true := by
  have hA := generate_signature_ascii (WebhookVerifier.init secret) payload
  simp only [WebhookVerifier.verify_signature, compare_digest, hA,
    Bool.and_self, if_pos]
  simp only [Except.ok.injEq]
  exact (tscmp_fst _ _).mpr rfl

/-- C2 counterexample: constructing a `WebhookVerifier` with the empty
secret does not fail — it yields a verifier holding the empty key, whose
`generate_signature` and `verify_signature` run and succeed. -/
theorem C2_counterexample :
    WebhookVerifier.init (pystr "") = ⟨[]⟩ ∧
    ((WebhookVerifier.init (pystr "")).generate_signature (pystr "test")).length = 64 ∧
    (WebhookVerifier.init (pystr "")).verify_signature (pystr "test")
      (some ((WebhookVerifier.init (pystr "")).generate_signature (pystr "test"))) =
      .ok true :=
  ⟨rfl, by rfl, by rfl⟩

/-- C2 amended: construction never fails and performs no validation — any
secret (the empty string included) is UTF-8-encoded and stored as the HMAC
key, and `generate_signature` still produces a 64-character signature. -/
theorem C2_no_construction_check (secret payload : List Nat) :
    (WebhookVerifier.init secret).secret = utf8Encode secret ∧
    ((WebhookVerifier.init secret).generate_signature payload).length = 64 :=
  ⟨rfl, generate_signature_length _ _⟩

/-- C3 counterexample: a candidate signature containing a non-ASCII
character makes `verify_signature` raise `TypeError` (from
`hmac.compare_digest`) instead of returning `False`. -/
theorem C3_counterexample :
    (WebhookVerifier.init (pystr "secret")).verify_signature (pystr "payload")
      (some (pystr "é")) = .error .typeError := by rfl

/-- C3 amended: for ASCII candidate signatures, `verify_signature` returns
exactly the full-string equality with the recomputed expected signature and
never raises; non-ASCII candidates instead raise `TypeError`. -/
theorem C3_verify_iff_ascii (secret payload c : List Nat)
    (h : isAsciiStr c = true) :
    (WebhookVerifier.init secret).verify_signature payload (some c) =
      .ok (c == (WebhookVerifier.init secret).generate_signature payload) := by
  have hA := generate_signature_ascii (WebhookVerifier.init secret) payload
  simp only [WebhookVerifier.verify_signature, compare_digest, h, hA,
    Bool.and_self, if_pos, tscmp_fst_beq]

theorem C3_verify_iff_ascii_witness :
    isAsciiStr (pystr "deadbeef") = true ∧
    (WebhookVerifier.init (pystr "s")).verify_signature (pystr "p")
        (some (pystr "deadbeef")) =
      .ok ((pystr "deadbeef") ==
        (WebhookVerifier.init (pystr "s")).generate_signature (pystr "p")) ∧
    ((pystr "deadbeef") ==
      (WebhookVerifier.init (pystr "s")).generate_signature (pystr "p")) = false :=
  ⟨by decide, C3_verify_iff_ascii _ _ _ (by decide), by decide⟩

/-- C5: the comparison `verify_signature` performs (CPython's `_tscmp`)
scans a number of positions that depends only on the expected signature —
always 64 — never on the candidate or on where the first difference lies. -/
theorem C5_constant_time_cost (secret payload c c' : List Nat) :
    (tscmp c ((WebhookVerifier.init secret).generate_signature payload)).2 =
      (tscmp c' ((WebhookVerifier.init secret).generate_signature payload)).2 ∧
    (tscmp c ((WebhookVerifier.init secret).generate_signature payload)).2 = 64 :=
  ⟨rfl, generate_signature_length _ _⟩

/-- C8: for every secret and payload, the generated signature is exactly 64
characters, each a lowercase hexadecimal digit, and is the hex encoding of
the HMAC-SHA-256 of the payload bytes under the secret bytes. -/
theorem C8_output_format (secret payload : List Nat) :
    ((WebhookVerifier.init secret).generate_signature payload).length = 64 ∧
    (∀ ch ∈ (WebhookVerifier.init secret).generate_signature payload,
      ch ∈ pystr "0123456789abcdef") ∧
    (WebhookVerifier.init secret).generate_signature payload =
      hexdigest (hmacSha256 (utf8Encode secret) (utf8Encode payload)) :=
  ⟨generate_signature_length _ _, fun ch hch => hexdigest_mem_hex _ ch hch, rfl⟩

end PyClient

namespace PyClient

/-- C4 counterexample: for a request whose raw body is not valid UTF-8
(the single byte `0xFF`), decoding with `errors='replace'` and re-encoding
changes the bytes, so the MAC is not computed over the raw body bytes. -/
theorem C4_counterexample :
    macBytes ⟨none, [0xFF]⟩ = [0xEF, 0xBF, 0xBD] ∧
    macBytes ⟨none, [0xFF]⟩ ≠ [0xFF] := by
  constructor
  · rfl
  · decide

/-- C4 amended: whenever the raw body is valid UTF-8, the decode/re-encode
round-trip is the identity, so the byte sequence the verification MACs is
exactly the raw bytes of the received body; invalid UTF-8 bodies are
altered by U+FFFD replacement before hashing. -/
theorem C4_raw_bytes_when_valid_utf8 (req : Request) (cs : List Nat)
    (h : utf8Decode? req.rawBody = some cs) :
    macBytes req = req.rawBody := by
  obtain ⟨hrep, henc⟩ := utf8Decode_roundtrip h
  unfold macBytes
  rw [hrep, henc]

theorem C4_raw_bytes_when_valid_utf8_witness :
    utf8Decode? [97, 98, 99] = some [97, 98, 99] ∧
    macBytes ⟨none, [97, 98, 99]⟩ = [97, 98, 99] :=
  ⟨by decide, C4_raw_bytes_when_valid_utf8 ⟨none, [97, 98, 99]⟩ [97, 98, 99] (by decide)⟩

/-- C6: whenever signature verification returns `False`, the handler
responds 401 `{'error': 'Invalid signature'}` and performs no dispatch
effect at all. -/
theorem C6_reject_no_dispatch (secret : List Nat) (req : Request)
    (h : (WebhookVerifier.init secret).verify_signature
      (utf8DecodeReplace req.rawBody) req.signatureHeader = .ok false) :
    handle_webhook secret req = .ok (⟨401, invalidSignatureBody⟩, []) := by
  simp only [handle_webhook, h]

theorem C6_reject_no_dispatch_witness :
    (WebhookVerifier.init (pystr "whsec_test123")).verify_signature
      (utf8DecodeReplace (utf8Encode (pystr "{}"))) (some (pystr "bad")) =
      .ok false ∧
    handle_webhook (pystr "whsec_test123")
        ⟨some (pystr "bad"), utf8Encode (pystr "{}")⟩ =
      .ok (⟨401, invalidSignatureBody⟩, []) :=
  ⟨by rfl, C6_reject_no_dispatch _ _ (by rfl)⟩

/-- C9: a request with no `X-Webhook-Signature` header makes the handler
pass `None` to `verify_signature`, which raises `TypeError` inside
`hmac.compare_digest` instead of returning `False` and answering 401. -/
theorem C9_missing_header_raises (secret body : List Nat) :
    handle_webhook secret ⟨none, body⟩ = .error .typeError := by
  simp only [handle_webhook, WebhookVerifier.verify_signature, compare_digest]

/-- C10 counterexample: a request with a valid signature over the body
`null` parses to a non-dict, so `data.get('type')` raises
`AttributeError` — the handler does not respond 200 `{'received': True}`. -/
theorem C10_counterexample :
    handle_webhook (pystr "s")
      ⟨some ((WebhookVerifier.init (pystr "s")).generate_signature (pystr "null")),
        utf8Encode (pystr "null")⟩ = .error .attributeError := by rfl

/-- C10 amended: for every request whose signature verifies and whose raw
body `request.get_json()` accepts as a JSON object (a strict UTF-8 decode
of the raw bytes followed by `json.loads` parsing), the handler responds
200 `{'received': True}` whatever the `type` field is (unknown or absent
types included, which reach the fallback dispatch). -/
theorem C10_verified_object_accepted (secret : List Nat) (req : Request)
    (fields : List (List Nat × Json))
    (hv : (WebhookVerifier.init secret).verify_signature
      (utf8DecodeReplace req.rawBody) req.signatureHeader = .ok true)
    (hp : get_json req.rawBody = some (.obj fields)) :
    handle_webhook secret req = .ok (⟨200, receivedBody⟩, eventEffects fields) := by
  simp only [handle_webhook, hv, hp]

theorem C10_verified_object_accepted_witness :
    (WebhookVerifier.init (pystr "whsec_test123")).verify_signature
        (utf8DecodeReplace (utf8Encode (pystr "{}")))
        (some ((WebhookVerifier.init (pystr "whsec_test123")).generate_signature
          (pystr "{}"))) = .ok true ∧
    get_json (utf8Encode (pystr "{}")) = some (.obj []) ∧
    handle_webhook (pystr "whsec_test123")
        ⟨some ((WebhookVerifier.init (pystr "whsec_test123")).generate_signature
          (pystr "{}")), utf8Encode (pystr "{}")⟩ =
      .ok (⟨200, receivedBody⟩, eventEffects []) :=
  ⟨by rfl, by rfl,
    C10_verified_object_accepted _ _ [] (by rfl) (by rfl)⟩

end PyClient
